import Mathlib

/-!
Shallow embedding of the OpsIntel360 analytics pipeline and proofs about it.

The embedding covers the insight engine (`src/models/insights.py`), the
z-score anomaly detector and anomaly narratives (`src/models/anomalies.py`),
the forecast accuracy computation (`src/models/forecasting.py`), the ETL
cleaning and loading utilities (`src/etl/utils.py`, `src/etl/etl_pipeline.py`)
and the refresh endpoint guard (`src/api/endpoints.py`).

Conventions: machine floats are modelled as rationals (`ℚ`); the square root
taken by the z-score and RMSE computations is expressed with `Real.sqrt` in
theorem statements, while the executable definitions carry the equivalent
squared comparisons (the equivalence is proved in `is_anomaly_eq_score`).
String formatting of narratives and insights is modelled by inductive values
carrying exactly the quantities interpolated into the source's f-strings.
-/

namespace OpsIntel

/-- Severity tier of an insight; `insights.severity ∈ {info, warning, critical}`. -/
inductive Severity
  | info
  | warning
  | critical
deriving DecidableEq

/-- Which insight template of `src/models/insights.py` produced an insight:
the four mutually exclusive revenue-growth texts of `analyze_revenue_trends`
and the two profit-margin texts. -/
inductive InsightKind
  | revenueGood
  | revenueCritical
  | revenueWarning
  | revenueSteady
  | marginCritical
  | marginGood
deriving DecidableEq

/-- A `good`/`warning`/`critical` threshold triple from `config.KPI_THRESHOLDS`. -/
structure Thresholds where
  good : ℚ
  warning : ℚ
  critical : ℚ
deriving DecidableEq

/-- `config.KPI_THRESHOLDS["revenue_growth"] = {good: 5.0, warning: 0.0, critical: -5.0}`. -/
def revenueGrowthThresholds : Thresholds := ⟨5, 0, -5⟩

/-- `config.KPI_THRESHOLDS["profit_margin"] = {good: 20.0, warning: 10.0, critical: 5.0}`. -/
def profitMarginThresholds : Thresholds := ⟨20, 10, 5⟩

/-- A row of the finance window fetched by `analyze_revenue_trends`
(`SELECT date, revenue, profit_margin_pct FROM finance`). -/
structure FinRow where
  date : ℤ
  revenue : ℚ
  profit_margin_pct : ℚ
deriving DecidableEq

/-- An insight record `{date, category, insight_text, severity, metric_value}`;
the `insight_text` template is abstracted by `kind`. -/
structure Insight where
  date : ℤ
  category : String
  kind : InsightKind
  severity : Severity
  metric_value : ℚ
deriving DecidableEq

/-- Category string used by the finance analyzer. -/
def financeCat : String := "finance"

/-- Month-over-month growth rate computed by `analyze_revenue_trends`:
`(latest_revenue - prev_revenue) / prev_revenue * 100`, where `iloc[-1]` and
`iloc[-2]` of the window sorted ascending by date are the first and second
elements of the reversed window. -/
def growthRate (df : List FinRow) : ℚ :=
  match df.reverse with
  | latest :: prev :: _ => (latest.revenue - prev.revenue) / prev.revenue * 100
  | _ => 0

/-- Date of the last row of the window, `df['date'].iloc[-1]`. -/
def lastDate (df : List FinRow) : ℤ :=
  match df.reverse with
  | latest :: _ => latest.date
  | [] => 0

/-- Latest profit margin, `df['profit_margin_pct'].iloc[-1]`. -/
def lastMargin (df : List FinRow) : ℚ :=
  match df.reverse with
  | latest :: _ => latest.profit_margin_pct
  | [] => 0

/-- `InsightEngine.analyze_revenue_trends` on the fetched finance window,
already sorted ascending by date (the function sorts right after the query).
Mirrors the source: early return on fewer than 2 points, four-way branch on
the growth rate against `revenue_growth` thresholds (strict comparisons, the
`good` branch checked first), then an optional profit-margin insight. -/
def analyze_revenue_trends (df : List FinRow) : List Insight :=
  if df.length < 2 then []
  else
    let g := growthRate df
    let d := lastDate df
    let revenueInsight : Insight :=
      if g > revenueGrowthThresholds.good then ⟨d, financeCat, .revenueGood, .info, g⟩
      else if g < revenueGrowthThresholds.critical then ⟨d, financeCat, .revenueCritical, .critical, g⟩
      else if g < revenueGrowthThresholds.warning then ⟨d, financeCat, .revenueWarning, .warning, g⟩
      else ⟨d, financeCat, .revenueSteady, .info, g⟩
    let m := lastMargin df
    let marginInsights : List Insight :=
      if m < profitMarginThresholds.critical then [⟨d, financeCat, .marginCritical, .critical, m⟩]
      else if m > profitMarginThresholds.good then [⟨d, financeCat, .marginGood, .info, m⟩]
      else []
    revenueInsight :: marginInsights

/-- Whether an insight is one of the four revenue-growth insights
(as opposed to a profit-margin insight). -/
def isRevenueInsight (i : Insight) : Bool :=
  match i.kind with
  | .revenueGood | .revenueCritical | .revenueWarning | .revenueSteady => true
  | _ => false

/-- Fixed finance window with revenues `[100, 106]` (margins in the neutral band). -/
def w106 : List FinRow := [⟨0, 100, 10⟩, ⟨1, 106, 10⟩]

/-- Fixed finance window with revenues `[100, 105]`: growth rate exactly 5.0%. -/
def w105 : List FinRow := [⟨0, 100, 10⟩, ⟨1, 105, 10⟩]

/-- Mean of a series, `pandas.Series.mean()` (also `np.mean`): sum divided by length. -/
def seriesMean (xs : List ℚ) : ℚ := xs.sum / xs.length

/-- Squared sample standard deviation `pandas.Series.std()^2` (`ddof = 1`):
sum of squared deviations from the mean divided by `n - 1`. For a singleton
series pandas yields NaN and the z-score comparison below is then false for
every point; this coincides with the `σ = 0` degenerate branch here, which
also flags nothing. -/
def sampleVariance (xs : List ℚ) : ℚ :=
  ((xs.map (fun x => (x - seriesMean xs) ^ 2)).sum) / ((xs.length : ℚ) - 1)

/-- `config.ANOMALY_CONFIG["z_score_threshold"] = 3`. -/
def zThresholdDefault : ℚ := 3

/-- The anomaly flag of `detect_zscore_anomalies`: false when the standard
deviation is zero, otherwise `|v - mean| / std > threshold`. The division by
the (irrational) standard deviation is expressed by the equivalent squared
comparison; `is_anomaly_eq_score` proves it equal to the source's formula. -/
def is_anomaly (xs : List ℚ) (threshold v : ℚ) : Bool :=
  if sampleVariance xs = 0 then false
  else decide (threshold < 0) || decide (threshold ^ 2 * sampleVariance xs < (v - seriesMean xs) ^ 2)

/-- Detection-method tag written by `detect_zscore_anomalies`. -/
def zscoreMethod : String := "z-score"

/-- A row of the frame returned by `detect_zscore_anomalies`: the metric
value plus the added `is_anomaly`, `expected_value` and `detection_method`
columns. The real-valued `z_score` column is characterised in the theorems
through `Real.sqrt` of `sampleVariance`. -/
structure ZRow where
  value : ℚ
  is_anomaly : Bool
  expected_value : ℚ
  detection_method : String
deriving DecidableEq

/-- `AnomalyDetector.detect_zscore_anomalies` on the metric column `xs`:
every row receives the anomaly flag, `expected_value = mean` and the method tag. -/
def detect_zscore_anomalies (xs : List ℚ) (threshold : ℚ) : List ZRow :=
  xs.map (fun v => ⟨v, is_anomaly xs threshold v, seriesMean xs, zscoreMethod⟩)

/-- Number of rows flagged anomalous (the rows kept by
`result_df[result_df['is_anomaly']]` in `detect_metric_anomalies`). -/
def anomalyCount (xs : List ℚ) (threshold : ℚ) : ℕ :=
  (detect_zscore_anomalies xs threshold).countP (fun r => r.is_anomaly)

/-- Inner join of the actual series (`ds`, `y`) with the forecast series
(`ds`, `yhat`) on the date key, as `actual_df.merge(forecast_df[['ds','yhat']],
on='ds', how='inner')`; left order is preserved and dates are unique in both
series (one row per date). -/
def innerJoin (actual forecast : List (ℤ × ℚ)) : List (ℚ × ℚ) :=
  actual.filterMap (fun p =>
    match forecast.find? (fun q => decide (q.1 = p.1)) with
    | some q => some (p.2, q.2)
    | none => none)

/-- Mean squared error over joined (actual, predicted) pairs; the source's
RMSE is `Real.sqrt` of this value. -/
def mseQ (pairs : List (ℚ × ℚ)) : ℚ := seriesMean (pairs.map (fun p => (p.1 - p.2) ^ 2))

/-- Mean absolute error over joined (actual, predicted) pairs. -/
def maeQ (pairs : List (ℚ × ℚ)) : ℚ := seriesMean (pairs.map (fun p => |p.1 - p.2|))

/-- MAPE as computed by `_calculate_accuracy`:
`np.mean(np.abs((actual - predicted) / np.where(actual != 0, actual, 1))) * 100`,
so the denominator is the actual value itself when nonzero and 1 otherwise. -/
def mapeQ (pairs : List (ℚ × ℚ)) : ℚ :=
  seriesMean (pairs.map (fun p => |(p.1 - p.2) / (if p.1 = 0 then 1 else p.1)|)) * 100

/-- `TimeSeriesForecaster._calculate_accuracy`, returning
(mean squared error, MAE, MAPE); the reported RMSE is the square root of the
first component and the final round-to-2-decimals presentation step is
omitted (approximation claims are stated as bounds within 0.01). An empty
join returns zeros, as in the source's length guard. -/
def calculate_accuracy (actual forecast : List (ℤ × ℚ)) : ℚ × ℚ × ℚ :=
  let merged := innerJoin actual forecast
  if merged.length = 0 then (0, 0, 0)
  else (mseQ merged, maeQ merged, mapeQ merged)

/-- Modelled from the claim's wording only (for comparison with the source's
`mapeQ`): `MAPE = mean(|error| / max(|actual|, 1)) × 100`. -/
def specMAPE (pairs : List (ℚ × ℚ)) : ℚ :=
  seriesMean (pairs.map (fun p => |p.1 - p.2| / max |p.1| 1)) * 100

/-- Accuracy example: actual series `[10, 20, 30]` on dates 0, 1, 2. -/
def actualEx : List (ℤ × ℚ) := [(0, 10), (1, 20), (2, 30)]

/-- Accuracy example: predicted series `[10, 18, 33]` on dates 0, 1, 2. -/
def forecastEx : List (ℤ × ℚ) := [(0, 10), (1, 18), (2, 33)]

/-- Actual series whose single value is 1/2 (nonzero but below 1). -/
def mapeCexActual : List (ℤ × ℚ) := [(0, 1/2)]

/-- Forecast series predicting 0 on the same date. -/
def mapeCexForecast : List (ℤ × ℚ) := [(0, 0)]

/-- A row of an anomaly frame passed to `generate_anomaly_insights`: its
date, the metric value, and the `expected_value` column when present. -/
structure ARow where
  date : ℤ
  value : ℚ
  expected_value : Option ℚ
deriving DecidableEq

/-- Content of one narrative string produced by `generate_anomaly_insights`:
either the "was X% higher/lower than expected" text (carrying the metric
name, the date, `abs(deviation)`, the direction flag `value > expected`, the
value and the expected value), or the generic "unusual value" text. The
`.1f`/`.2f` digit formatting of the f-string is presentation and omitted. -/
inductive Narrative
  | deviation (metric : String) (date : ℤ) (deviationAbsPct : ℚ) (higher : Bool) (value expected : ℚ)
  | unusual (metric : String) (date : ℤ) (value : ℚ)
deriving DecidableEq

/-- The date mentioned in a narrative. -/
def Narrative.ndate : Narrative → ℤ
  | .deviation _ d _ _ _ _ => d
  | .unusual _ d _ => d

/-- Narrative for one anomaly row, mirroring the loop body of
`generate_anomaly_insights`: when `expected_value` is present, the percent
deviation is `(value - expected) / expected * 100` guarded to 0 when the
expected value is 0, the direction is `higher` iff `value > expected`, and
the text shows the absolute deviation; otherwise the generic text. -/
def mkNarrative (metric : String) (r : ARow) : Narrative :=
  match r.expected_value with
  | some e =>
    let dev := if e = 0 then 0 else (r.value - e) / e * 100
    .deviation metric r.date |dev| (decide (e < r.value)) r.value e
  | none => .unusual metric r.date r.value

/-- `AnomalyDetector.generate_anomaly_insights`: empty frame yields an empty
list, otherwise one narrative per row of `anomalies.head(3)` — the first
three rows of the frame as given (the frames built by
`detect_metric_anomalies` are ordered ascending by date). -/
def generate_anomaly_insights (metric : String) (anomalies : List ARow) : List Narrative :=
  if anomalies.isEmpty then []
  else (anomalies.take 3).map (mkNarrative metric)

/-- Insertion step for sorting anomaly rows by descending date. -/
def insertByDateDesc (a : ARow) : List ARow → List ARow
  | [] => [a]
  | b :: l => if b.date ≤ a.date then a :: b :: l else b :: insertByDateDesc a l

/-- Sort anomaly rows by descending date (stable insertion sort). -/
def sortByDateDesc (l : List ARow) : List ARow := l.foldr insertByDateDesc []

/-- Modelled from the claim's wording only (for comparison with the source):
the 3 flagged observations with the most recent dates. -/
def top3ByRecency (l : List ARow) : List ARow := (sortByDateDesc l).take 3

/-- Metric display name used in concrete examples. -/
def metricM : String := "M"

/-- An anomaly frame of four flagged rows ordered ascending by date (as
`detect_metric_anomalies` orders them). -/
def aRows4 : List ARow := [⟨1, 10, some 5⟩, ⟨2, 11, some 5⟩, ⟨3, 12, some 5⟩, ⟨4, 13, some 5⟩]

/-- A single flagged row whose expected value is 0. -/
def aRowZeroExp : ARow := ⟨1, 5, some 0⟩

/-- A row of a raw tabular source as cleaned by `clean_dataframe`: the date
cell (raw string before `pd.to_datetime`, or already canonical), the numeric
cells (float64/int64 columns; `none` is a missing value) and the categorical
cells (object columns; `none` is a missing value). -/
structure Row where
  date : String ⊕ ℤ
  nums : List (Option ℚ)
  cats : List (Option String)
deriving DecidableEq

/-- `pd.to_datetime` on one date cell, parameterised by the date parser. -/
def toCanonicalDate (parse : String → ℤ) : String ⊕ ℤ → String ⊕ ℤ
  | .inl s => .inr (parse s)
  | .inr d => .inr d

/-- Conversion of the date column, `df[date_column] = pd.to_datetime(...)`. -/
def convertDates (parse : String → ℤ) (df : List Row) : List Row :=
  df.map (fun r => { r with date := toCanonicalDate parse r.date })

/-- Helper for duplicate-row removal keeping first occurrences. -/
def dedupAux {α : Type} [DecidableEq α] (seen : List α) : List α → List α
  | [] => []
  | a :: l => if a ∈ seen then dedupAux seen l else a :: dedupAux (a :: seen) l

/-- `df.drop_duplicates()`: remove duplicate rows, keeping first occurrences. -/
def dedupFirst {α : Type} [DecidableEq α] (l : List α) : List α := dedupAux [] l

/-- The non-null values of numeric column `j` (what `median()` aggregates,
since pandas skips NaN). -/
def someVals (df : List Row) (j : ℕ) : List ℚ :=
  df.filterMap (fun r => (r.nums.get? j).bind id)

/-- Insertion step for sorting rationals ascending. -/
def insertAsc (a : ℚ) : List ℚ → List ℚ
  | [] => [a]
  | b :: l => if a ≤ b then a :: b :: l else b :: insertAsc a l

/-- Sort rationals ascending (insertion sort). -/
def sortQ (l : List ℚ) : List ℚ := l.foldr insertAsc []

/-- `pandas.Series.median()` over the non-null values: middle element of the
sorted values for odd length, mean of the two middle elements for even
length, and undefined (NaN) for an empty list. -/
def medianQ (xs : List ℚ) : Option ℚ :=
  if (sortQ xs).length = 0 then none
  else if (sortQ xs).length % 2 = 1 then (sortQ xs).get? ((sortQ xs).length / 2)
  else
    match (sortQ xs).get? ((sortQ xs).length / 2 - 1), (sortQ xs).get? ((sortQ xs).length / 2) with
    | some a, some b => some ((a + b) / 2)
    | _, _ => none

/-- One numeric cell of column `j` after `fillna(median)`: a missing cell
becomes the column median when it exists and stays missing otherwise
(filling with a NaN median leaves NaN), a present cell is unchanged. -/
def fillCell (df2 : List Row) (j : ℕ) : Option ℚ → Option ℚ
  | some x => some x
  | none => medianQ (someVals df2 j)

/-- One row's numeric cells after `fillna(median)`; `j` is the index of the
first cell. -/
def fillNums (df2 : List Row) : ℕ → List (Option ℚ) → List (Option ℚ)
  | _, [] => []
  | j, v :: rest => fillCell df2 j v :: fillNums df2 (j + 1) rest

/-- Sentinel for missing categorical values. -/
def unknownStr : String := "Unknown"

/-- One row's categorical cells after `fillna('Unknown')`. -/
def fillCats (cs : List (Option String)) : List (Option String) :=
  cs.map (fun c => some (c.getD unknownStr))

/-- Numeric imputation over the whole (deduplicated) frame; column medians
are computed on that same frame. -/
def imputeNums (df2 : List Row) : List Row :=
  df2.map (fun r => { r with nums := fillNums df2 0 r.nums })

/-- Categorical imputation over the whole frame. -/
def imputeCats (df : List Row) : List Row :=
  df.map (fun r => { r with cats := fillCats r.cats })

/-- `clean_dataframe` from `src/etl/utils.py`: convert the date column, drop
duplicate rows, impute numeric nulls with the per-column median, impute
categorical nulls with the sentinel. -/
def clean_dataframe (parse : String → ℤ) (df : List Row) : List Row :=
  imputeCats (imputeNums (dedupFirst (convertDates parse df)))

/-- The five fact tables loaded by `OpsIntelETL._load_all_data`. -/
inductive TableName
  | finance
  | sales
  | operations
  | hr
  | it_tickets
deriving DecidableEq

/-- `load_csv_to_db` with `if_exists='replace'`: the table contents after the
load are the cleaned CSV rows, regardless of any prior contents. -/
def load_csv_to_db (parse : String → ℤ) (csv : List Row) : List Row :=
  clean_dataframe parse csv

/-- `OpsIntelETL._load_all_data`: each table whose source reads successfully
is replaced wholesale by the cleaned source rows; a failed read (`none`) is
recorded and leaves that table as it was (no partial write). -/
def loadAllData (parse : String → ℤ) (sources : TableName → Option (List Row))
    (db : TableName → List Row) : TableName → List Row :=
  fun t =>
    match sources t with
    | some csv => load_csv_to_db parse csv
    | none => db t

/-- The insights contributed by one domain analyzer: its list on success,
nothing when it raised (the exception is caught and logged). -/
def exceptInsights (r : Except String (List Insight)) : List Insight :=
  match r with
  | .ok xs => xs
  | .error _ => []

/-- `InsightEngine.generate_all_insights` over the outcomes of the five
domain analyzers (Finance, Sales, Operations, HR, IT, in that order): the
per-domain loop appends each successful domain's insights and skips a domain
that raised. -/
def generate_all_insights (results : List (Except String (List Insight))) : List Insight :=
  results.foldl
    (fun acc r =>
      match r with
      | .ok xs => acc ++ xs
      | .error _ => acc)
    []

/-- Persistence of the returned insights: each one is inserted into the
`insights` table (a per-insight failure is logged and does not drop the
insight from the returned sequence). -/
def persistInsights (db newInsights : List Insight) : List Insight := db ++ newInsights

/-- The refresh status values of the status surface. -/
inductive RefreshState
  | idle
  | running
  | completed
  | failed
deriving DecidableEq

/-- The process-wide `refresh_status` record `{status, last_refresh, message}`. -/
structure RefreshStatus where
  status : RefreshState
  last_refresh : Option String
  message : String
deriving DecidableEq

/-- Response of the `/refresh` endpoint: either accepted, or a JSON conflict
response with its HTTP status code. -/
inductive RefreshResponse
  | accepted
  | conflict (code : ℕ)
deriving DecidableEq

/-- The synchronous body of the `/refresh` handler: when the shared status is
`running` it returns the 409 conflict response without touching the status
record or scheduling a background task; otherwise it schedules the background
refresh task (third component) and returns the accepted response. -/
def refresh_data (st : RefreshStatus) : RefreshResponse × RefreshStatus × Bool :=
  if st.status = .running then (.conflict 409, st, false)
  else (.accepted, st, true)

/-- Message text used in the concrete running-status example. -/
def refreshMsg : String := "Running ETL pipeline..."

/-- A refresh status currently in the `running` state. -/
def runningStatus : RefreshStatus := ⟨.running, none, refreshMsg⟩

/-- Trivial date parser used in concrete examples. -/
def parse0 : String → ℤ := fun _ => 0

/-- Concrete CSV contents with a duplicate row, a numeric null and a
categorical null. -/
def csvEx : List Row :=
  [⟨Sum.inr 0, [some 1, none], [none]⟩,
   ⟨Sum.inr 0, [some 1, none], [none]⟩,
   ⟨Sum.inr 1, [some 3, some 2], [some unknownStr]⟩]

/-- A frame whose single numeric column is entirely null. -/
def dfAllNull : List Row := [⟨Sum.inr 0, [none], []⟩]

/-- Source files where only the finance CSV is readable. -/
def sourcesEx : TableName → Option (List Row) :=
  fun t =>
    match t with
    | .finance => some csvEx
    | _ => none

/-- An empty database state. -/
def dbEmpty : TableName → List Row := fun _ => []

/-- An alternative prior database state. -/
def dbAlt : TableName → List Row := fun _ => csvEx

/-- A small metric series with two distinct values. -/
def zXs : List ℚ := [0, 10]

/-- A constant metric series (zero sample standard deviation). -/
def zXsConst : List ℚ := [7, 7, 7]

/-- A spread metric series used for the threshold-monotonicity witness. -/
def zXsSpread : List ℚ := [0, 100]

end OpsIntel

namespace OpsIntel

/-- C9: whenever a refresh is triggered while the shared refresh status is
`running`, the trigger is rejected immediately with an HTTP 409 conflict
response, no background refresh task is started, and the `refresh_status`
record is left unchanged. -/
theorem refresh_running_conflict (st : RefreshStatus) (h : st.status = .running) :
    refresh_data st = (.conflict 409, st, false) := by
  simp [refresh_data, h]

/-- Witness for C9 at a concrete running status. -/
theorem refresh_running_conflict_witness :
    runningStatus.status = RefreshState.running ∧
    refresh_data runningStatus = (.conflict 409, runningStatus, false) :=
  ⟨rfl, refresh_running_conflict runningStatus rfl⟩

/-- The per-domain loop of `generate_all_insights` collects exactly the
successful domains' insights, in order. -/
lemma generate_all_insights_eq_join (results : List (Except String (List Insight))) :
    generate_all_insights results = (results.map exceptInsights).flatten := by
  have key : ∀ (rs : List (Except String (List Insight))) (acc : List Insight),
      rs.foldl
          (fun acc r =>
            match r with
            | .ok xs => acc ++ xs
            | .error _ => acc)
          acc
        = acc ++ (rs.map exceptInsights).flatten := by
    intro rs
    induction rs with
    | nil => intro acc; simp
    | cons r rs ih =>
      intro acc
      cases r with
      | ok xs => simp [ih, exceptInsights, List.append_assoc]
      | error e => simp [ih, exceptInsights]
  simpa [generate_all_insights] using key results []

/-- C8: if one of the five domain analyzers raises (here HR), the insights
produced by the other four domains are still returned and persisted; in
general `generate_all_insights` returns the concatenation of the successful
domains' insights, so a failing domain contributes nothing and aborts
nothing. -/
theorem insights_partial_failure (lf ls lo li db : List Insight) (e : String) :
    generate_all_insights [.ok lf, .ok ls, .ok lo, .error e, .ok li] = lf ++ ls ++ lo ++ li ∧
    persistInsights db (generate_all_insights [.ok lf, .ok ls, .ok lo, .error e, .ok li])
      = db ++ (lf ++ ls ++ lo ++ li) ∧
    ∀ results : List (Except String (List Insight)),
      generate_all_insights results = (results.map exceptInsights).flatten := by
  refine ⟨?_, ?_, fun results => generate_all_insights_eq_join results⟩ <;>
    simp [generate_all_insights_eq_join, exceptInsights, persistInsights, List.append_assoc]

/-- C7: loading is idempotent: each `load_csv_to_db` call replaces the target
table wholesale with the cleaned source rows, so a second `_load_all_data`
run over unchanged sources leaves every fact table exactly as after the first
run, and the loaded contents do not depend on the prior database state. -/
theorem etl_load_idempotent (parse : String → ℤ) (sources : TableName → Option (List Row))
    (db db' : TableName → List Row) (t : TableName) (csv : List Row)
    (h : sources t = some csv) :
    (∀ u, loadAllData parse sources (loadAllData parse sources db) u
        = loadAllData parse sources db u) ∧
    loadAllData parse sources db t = load_csv_to_db parse csv ∧
    loadAllData parse sources db t = loadAllData parse sources db' t := by
  refine ⟨fun u => ?_, ?_, ?_⟩
  · cases hs : sources u <;> simp [loadAllData, hs]
  · simp [loadAllData, h]
  · simp [loadAllData, h]

/-- Witness for C7 at concrete sources and database states. -/
theorem etl_load_idempotent_witness :
    sourcesEx TableName.finance = some csvEx ∧
    ((∀ u, loadAllData parse0 sourcesEx (loadAllData parse0 sourcesEx dbEmpty) u
        = loadAllData parse0 sourcesEx dbEmpty u) ∧
     loadAllData parse0 sourcesEx dbEmpty TableName.finance = load_csv_to_db parse0 csvEx ∧
     loadAllData parse0 sourcesEx dbEmpty TableName.finance
        = loadAllData parse0 sourcesEx dbAlt TableName.finance) :=
  ⟨rfl, etl_load_idempotent parse0 sourcesEx dbEmpty dbAlt TableName.finance csvEx rfl⟩

/-- C1 counterexample: at a growth rate of exactly 5.0% (window
`[revenue: 100, 105]`), the code takes the strict comparison
`growth_rate > 5` and emits the steady-growth insight, not the `good`
insight the claim's `g ≥ 5%` classification demands. -/
theorem revenue_boundary_counterexample :
    growthRate w105 = 5 ∧ revenueGrowthThresholds.good ≤ (5 : ℚ) ∧
    (analyze_revenue_trends w105).map Insight.kind = [InsightKind.revenueSteady] ∧
    InsightKind.revenueSteady ≠ InsightKind.revenueGood := by
  have hg : growthRate w105 = 5 := by
    simp [growthRate, w105]
    norm_num
  have hlen : w105.length = 2 := by simp [w105]
  have hm : lastMargin w105 = 10 := by simp [lastMargin, w105]
  have hd : lastDate w105 = 1 := by simp [lastDate, w105]
  refine ⟨hg, by norm_num [revenueGrowthThresholds], ?_, by simp⟩
  simp only [analyze_revenue_trends, hlen, hg, hm, hd,
    revenueGrowthThresholds, profitMarginThresholds]
  norm_num

/-- C1 (amended: the `good` classification requires strictly more than 5%):
for every finance window with at least 2 data points, the analyzer emits
exactly one revenue insight whose metric value is the month-over-month growth
rate, classified info (`good`) when g > 5, critical when g < −5, warning when
g < 0 and info (`steady growth`) otherwise; the window `[100, 106]` yields
g = 6.0 and exactly one info-severity finance insight with metric value 6.0. -/
theorem revenue_trend_classified (df : List FinRow) (h : 2 ≤ df.length) :
    ((analyze_revenue_trends df).filter isRevenueInsight =
      [{ date := lastDate df, category := financeCat,
         kind :=
           if revenueGrowthThresholds.good < growthRate df then InsightKind.revenueGood
           else if growthRate df < revenueGrowthThresholds.critical then InsightKind.revenueCritical
           else if growthRate df < revenueGrowthThresholds.warning then InsightKind.revenueWarning
           else InsightKind.revenueSteady,
         severity :=
           if revenueGrowthThresholds.good < growthRate df then Severity.info
           else if growthRate df < revenueGrowthThresholds.critical then Severity.critical
           else if growthRate df < revenueGrowthThresholds.warning then Severity.warning
           else Severity.info,
         metric_value := growthRate df }]) ∧
    analyze_revenue_trends w106 = [⟨1, financeCat, .revenueGood, .info, 6⟩] ∧
    (analyze_revenue_trends w106).countP
      (fun i => decide (i.severity = Severity.info) && decide (i.metric_value = 6)) = 1 := by
  have hg6 : growthRate w106 = 6 := by
    simp [growthRate, w106]
    norm_num
  have h106 : analyze_revenue_trends w106 = [⟨1, financeCat, .revenueGood, .info, 6⟩] := by
    have hlen : w106.length = 2 := by simp [w106]
    have hm : lastMargin w106 = 10 := by simp [lastMargin, w106]
    have hd : lastDate w106 = 1 := by simp [lastDate, w106]
    simp only [analyze_revenue_trends, hlen, hg6, hm, hd,
      revenueGrowthThresholds, profitMarginThresholds]
    norm_num
  refine ⟨?_, h106, by rw [h106]; simp [List.countP_cons]⟩
  rcases hr : df.reverse with _ | ⟨latest, rest⟩
  · exfalso
    have hl := congrArg List.length hr
    simp only [List.length_reverse, List.length_nil] at hl
    omega
  rcases rest with _ | ⟨prev, rest'⟩
  · exfalso
    have hl := congrArg List.length hr
    simp only [List.length_reverse, List.length_cons, List.length_nil] at hl
    omega
  simp only [analyze_revenue_trends, if_neg (show ¬df.length < 2 by omega), gt_iff_lt,
    growthRate, lastDate, lastMargin, hr]
  split_ifs <;> simp [isRevenueInsight, List.filter]

/-- Witness for C1 at the window `[100, 106]`. -/
theorem revenue_trend_classified_witness :
    2 ≤ w106.length ∧
    (((analyze_revenue_trends w106).filter isRevenueInsight =
      [{ date := lastDate w106, category := financeCat,
         kind :=
           if revenueGrowthThresholds.good < growthRate w106 then InsightKind.revenueGood
           else if growthRate w106 < revenueGrowthThresholds.critical then InsightKind.revenueCritical
           else if growthRate w106 < revenueGrowthThresholds.warning then InsightKind.revenueWarning
           else InsightKind.revenueSteady,
         severity :=
           if revenueGrowthThresholds.good < growthRate w106 then Severity.info
           else if growthRate w106 < revenueGrowthThresholds.critical then Severity.critical
           else if growthRate w106 < revenueGrowthThresholds.warning then Severity.warning
           else Severity.info,
         metric_value := growthRate w106 }]) ∧
    analyze_revenue_trends w106 = [⟨1, financeCat, .revenueGood, .info, 6⟩] ∧
    (analyze_revenue_trends w106).countP
      (fun i => decide (i.severity = Severity.info) && decide (i.metric_value = 6)) = 1) :=
  ⟨by simp [w106], revenue_trend_classified w106 (by simp [w106])⟩

/-- The sample variance of a series is never negative. -/
lemma sampleVariance_nonneg (xs : List ℚ) : 0 ≤ sampleVariance xs := by
  rcases xs with _ | ⟨a, rest⟩
  · simp [sampleVariance]
  rcases rest with _ | ⟨b, l⟩
  · simp [sampleVariance, seriesMean]
  · apply div_nonneg
    · apply List.sum_nonneg
      intro x hx
      simp only [List.mem_map] at hx
      obtain ⟨y, _, rfl⟩ := hx
      positivity
    · simp only [List.length_cons]
      push_cast
      linarith [Nat.cast_nonneg (α := ℚ) l.length]

/-- A constant series has zero sample variance. -/
lemma sampleVariance_const (xs : List ℚ) (c : ℚ) (hc : ∀ v ∈ xs, v = c) :
    sampleVariance xs = 0 := by
  rcases xs with _ | ⟨a, rest⟩
  · simp [sampleVariance]
  · have hmean : seriesMean (a :: rest) = c := by
      have hsum : (a :: rest).sum = (a :: rest).length • c := List.sum_eq_card_nsmul _ c hc
      have hne : (((a :: rest).length : ℚ)) ≠ 0 := by
        simp only [List.length_cons]
        push_cast
        positivity
      rw [seriesMean, hsum, nsmul_eq_mul, mul_comm,
        mul_div_assoc, div_self hne, mul_one]
    have hz : ∀ x ∈ (a :: rest).map (fun x => (x - seriesMean (a :: rest)) ^ 2), x = 0 := by
      intro x hx
      simp only [List.mem_map] at hx
      obtain ⟨y, hy, rfl⟩ := hx
      rw [hmean, hc y hy]
      ring
    rw [sampleVariance, List.sum_eq_zero hz, zero_div]

/-- The executable anomaly flag coincides with the source's formula
`|value − mean| / std > threshold` whenever the standard deviation is
nonzero. -/
lemma is_anomaly_eq_score (xs : List ℚ) (t v : ℚ) (hvar : sampleVariance xs ≠ 0) :
    (is_anomaly xs t v = true) ↔
      (t : ℝ) < ((|v - seriesMean xs| : ℚ) : ℝ) / Real.sqrt ((sampleVariance xs : ℚ) : ℝ) := by
  have hpos : (0 : ℚ) < sampleVariance xs :=
    lt_of_le_of_ne (sampleVariance_nonneg xs) (Ne.symm hvar)
  have hposR : (0 : ℝ) < ((sampleVariance xs : ℚ) : ℝ) := by exact_mod_cast hpos
  have hsq : (0 : ℝ) < Real.sqrt ((sampleVariance xs : ℚ) : ℝ) := Real.sqrt_pos.mpr hposR
  rw [lt_div_iff hsq]
  unfold is_anomaly
  rw [if_neg hvar]
  simp only [Bool.or_eq_true, decide_eq_true_eq]
  constructor
  · rintro (ht | hlt)
    · have h1 : (t : ℝ) * Real.sqrt ((sampleVariance xs : ℚ) : ℝ) < 0 :=
        mul_neg_of_neg_of_pos (by exact_mod_cast ht) hsq
      have h2 : (0 : ℝ) ≤ ((|v - seriesMean xs| : ℚ) : ℝ) := by positivity
      linarith
    · by_cases ht : t < 0
      · have h1 : (t : ℝ) * Real.sqrt ((sampleVariance xs : ℚ) : ℝ) < 0 :=
          mul_neg_of_neg_of_pos (by exact_mod_cast ht) hsq
        have h2 : (0 : ℝ) ≤ ((|v - seriesMean xs| : ℚ) : ℝ) := by positivity
        linarith
      · push_neg at ht
        have ha : (0 : ℝ) ≤ (t : ℝ) * Real.sqrt ((sampleVariance xs : ℚ) : ℝ) :=
          mul_nonneg (by exact_mod_cast ht) hsq.le
        refine lt_of_pow_lt_pow_left 2 (by positivity) ?_
        rw [mul_pow, Real.sq_sqrt hposR.le]
        have hltR : ((t : ℝ)) ^ 2 * ((sampleVariance xs : ℚ) : ℝ)
            < (((v - seriesMean xs : ℚ) : ℝ)) ^ 2 := by exact_mod_cast hlt
        calc ((t : ℝ)) ^ 2 * ((sampleVariance xs : ℚ) : ℝ)
            < (((v - seriesMean xs : ℚ) : ℝ)) ^ 2 := hltR
          _ = ((|v - seriesMean xs| : ℚ) : ℝ) ^ 2 := by push_cast; rw [sq_abs]
  · intro hab
    by_cases ht : t < 0
    · exact Or.inl ht
    · push_neg at ht
      right
      have ha : (0 : ℝ) ≤ (t : ℝ) * Real.sqrt ((sampleVariance xs : ℚ) : ℝ) :=
        mul_nonneg (by exact_mod_cast ht) hsq.le
      have h2 : ((t : ℝ) * Real.sqrt ((sampleVariance xs : ℚ) : ℝ)) ^ 2
          < (((|v - seriesMean xs| : ℚ) : ℝ)) ^ 2 := by
        exact pow_lt_pow_left hab ha (by norm_num)
      rw [mul_pow, Real.sq_sqrt hposR.le] at h2
      have h3 : ((t : ℝ)) ^ 2 * ((sampleVariance xs : ℚ) : ℝ)
          < (((v - seriesMean xs : ℚ) : ℝ)) ^ 2 := by
        calc ((t : ℝ)) ^ 2 * ((sampleVariance xs : ℚ) : ℝ)
            < (((|v - seriesMean xs| : ℚ) : ℝ)) ^ 2 := h2
          _ = (((v - seriesMean xs : ℚ) : ℝ)) ^ 2 := by push_cast; rw [sq_abs]
      exact_mod_cast h3

/-- C2: `detect_zscore_anomalies` computes the mean and sample standard
deviation of the full series, flags a point iff `|value − mean| / std`
exceeds the threshold (with the score 0 and nothing flagged when the
standard deviation is zero), and writes `expected_value = mean` on every
row; consequently a constant series yields anomaly count 0 for every
threshold. -/
theorem zscore_flags (xs : List ℚ) (t : ℚ) (ht : 0 ≤ t) :
    (∀ r ∈ detect_zscore_anomalies xs t,
        r.expected_value = seriesMean xs ∧
        (r.is_anomaly = true ↔
          (t : ℝ) < (if sampleVariance xs = 0 then (0 : ℝ)
            else ((|r.value - seriesMean xs| : ℚ) : ℝ)
              / Real.sqrt ((sampleVariance xs : ℚ) : ℝ)))) ∧
    (∀ t' c : ℚ, (∀ v ∈ xs, v = c) → anomalyCount xs t' = 0) := by
  constructor
  · intro r hr
    simp only [detect_zscore_anomalies, List.mem_map] at hr
    obtain ⟨v, hv, rfl⟩ := hr
    refine ⟨rfl, ?_⟩
    by_cases hvar : sampleVariance xs = 0
    · rw [if_pos hvar]
      simp only [is_anomaly, if_pos hvar, Bool.false_eq_true, false_iff, not_lt]
      exact_mod_cast ht
    · rw [if_neg hvar]
      exact is_anomaly_eq_score xs t v hvar
  · intro t' c hc
    have hvar := sampleVariance_const xs c hc
    simp [anomalyCount, detect_zscore_anomalies, List.countP_map, Function.comp,
      is_anomaly, hvar]

/-- Witness for C2 at the series `[0, 10]` and the default threshold 3. -/
theorem zscore_flags_witness :
    (0 : ℚ) ≤ zThresholdDefault ∧
    ((∀ r ∈ detect_zscore_anomalies zXs zThresholdDefault,
        r.expected_value = seriesMean zXs ∧
        (r.is_anomaly = true ↔
          (zThresholdDefault : ℝ) < (if sampleVariance zXs = 0 then (0 : ℝ)
            else ((|r.value - seriesMean zXs| : ℚ) : ℝ)
              / Real.sqrt ((sampleVariance zXs : ℚ) : ℝ)))) ∧
    (∀ t' c : ℚ, (∀ v ∈ zXs, v = c) → anomalyCount zXs t' = 0)) :=
  ⟨by norm_num [zThresholdDefault],
   zscore_flags zXs zThresholdDefault (by norm_num [zThresholdDefault])⟩

/-- Raising the threshold can only turn flags off, never on. -/
lemma is_anomaly_antitone (xs : List ℚ) (t1 t2 v : ℚ) (h : t1 ≤ t2)
    (h2 : is_anomaly xs t2 v = true) : is_anomaly xs t1 v = true := by
  unfold is_anomaly at h2 ⊢
  by_cases hvar : sampleVariance xs = 0
  · rw [if_pos hvar] at h2
    exact absurd h2 (by simp)
  · rw [if_neg hvar] at h2 ⊢
    simp only [Bool.or_eq_true, decide_eq_true_eq] at h2 ⊢
    rcases h2 with ht2 | hsq
    · exact Or.inl (lt_of_le_of_lt h ht2)
    · by_cases ht1 : t1 < 0
      · exact Or.inl ht1
      · push_neg at ht1
        right
        have htt : t1 ^ 2 ≤ t2 ^ 2 := by
          have := mul_self_le_mul_self ht1 h
          simpa [pow_two] using this
        calc t1 ^ 2 * sampleVariance xs
            ≤ t2 ^ 2 * sampleVariance xs :=
              mul_le_mul_of_nonneg_right htt (sampleVariance_nonneg xs)
          _ < _ := hsq

/-- C3: for a fixed series, raising the z-score threshold never increases
the anomaly count. -/
theorem zscore_threshold_monotone (xs : List ℚ) (t1 t2 : ℚ) (h : t1 ≤ t2) :
    anomalyCount xs t2 ≤ anomalyCount xs t1 := by
  unfold anomalyCount detect_zscore_anomalies
  rw [List.countP_map, List.countP_map]
  apply List.countP_mono_left
  intro v hv hp
  exact is_anomaly_antitone xs t1 t2 v h hp

/-- Witness for C3 at the series `[0, 100]` and thresholds 1 ≤ 2. -/
theorem zscore_threshold_monotone_witness :
    (1 : ℚ) ≤ 2 ∧ anomalyCount zXsSpread 2 ≤ anomalyCount zXsSpread 1 :=
  ⟨by norm_num, zscore_threshold_monotone zXsSpread 1 2 (by norm_num)⟩

/-- The narrative for a row always mentions that row's date. -/
lemma ndate_mkNarrative (m : String) (r : ARow) : (mkNarrative m r).ndate = r.date := by
  cases he : r.expected_value <;> simp [mkNarrative, he, Narrative.ndate]

/-- C5 counterexample: on a frame of four flagged rows ordered ascending by
date (dates 1..4), `generate_anomaly_insights` narrates the first three rows
(dates 1, 2, 3) — the three oldest — whereas the three most recent flagged
dates are 4, 3, 2, so the output differs from the narratives of the top 3 by
recency. -/
theorem anomaly_recency_counterexample :
    (generate_anomaly_insights metricM aRows4).map Narrative.ndate = [1, 2, 3] ∧
    (top3ByRecency aRows4).map ARow.date = [4, 3, 2] ∧
    generate_anomaly_insights metricM aRows4 ≠ (top3ByRecency aRows4).map (mkNarrative metricM) := by
  have h1 : (generate_anomaly_insights metricM aRows4).map Narrative.ndate = [1, 2, 3] := by
    simp [generate_anomaly_insights, aRows4, mkNarrative, Narrative.ndate]
  have h2 : (top3ByRecency aRows4).map ARow.date = [4, 3, 2] := by
    norm_num [top3ByRecency, sortByDateDesc, insertByDateDesc, aRows4]
  refine ⟨h1, h2, fun heq => ?_⟩
  have h3 := congrArg (List.map Narrative.ndate) heq
  rw [h1, List.map_map] at h3
  have h4 : (top3ByRecency aRows4).map (Narrative.ndate ∘ mkNarrative metricM)
      = (top3ByRecency aRows4).map ARow.date :=
    List.map_congr_left (fun a _ => ndate_mkNarrative metricM a)
  rw [h4, h2] at h3
  simp at h3

/-- C5 (amended: the narratives cover the first 3 rows of the frame — for
frames produced by `detect_metric_anomalies`, which are ordered ascending by
date, these are the 3 earliest flagged observations, not the most recent):
at most 3 narratives are returned, an empty frame yields an empty list, and
each narrative states the value was X% higher or lower than expected when an
expected value is present (the direction being `value > expected`), or the
generic unusual-value text when it is absent. -/
theorem anomaly_insights_first3 (metric : String) (anomalies : List ARow)
    (h : anomalies ≠ []) :
    generate_anomaly_insights metric anomalies = (anomalies.take 3).map (mkNarrative metric) ∧
    (generate_anomaly_insights metric anomalies).length = min 3 anomalies.length ∧
    generate_anomaly_insights metric ([] : List ARow) = [] ∧
    ∀ r ∈ anomalies.take 3,
      (∀ e, r.expected_value = some e →
        mkNarrative metric r =
          .deviation metric r.date |if e = 0 then 0 else (r.value - e) / e * 100|
            (decide (e < r.value)) r.value e) ∧
      (r.expected_value = none → mkNarrative metric r = .unusual metric r.date r.value) := by
  have hgen : generate_anomaly_insights metric anomalies
      = (anomalies.take 3).map (mkNarrative metric) := by
    rcases anomalies with _ | ⟨a, l⟩
    · exact absurd rfl h
    · simp [generate_anomaly_insights]
  refine ⟨hgen, ?_, rfl, ?_⟩
  · rw [hgen, List.length_map, List.length_take]
  · intro r hr
    refine ⟨fun e he => ?_, fun he => ?_⟩
    · simp [mkNarrative, he]
    · simp [mkNarrative, he]

/-- Witness for C5 at the four-row frame. -/
theorem anomaly_insights_first3_witness :
    aRows4 ≠ [] ∧
    (generate_anomaly_insights metricM aRows4 = (aRows4.take 3).map (mkNarrative metricM) ∧
    (generate_anomaly_insights metricM aRows4).length = min 3 aRows4.length ∧
    generate_anomaly_insights metricM ([] : List ARow) = [] ∧
    ∀ r ∈ aRows4.take 3,
      (∀ e, r.expected_value = some e →
        mkNarrative metricM r =
          .deviation metricM r.date |if e = 0 then 0 else (r.value - e) / e * 100|
            (decide (e < r.value)) r.value e) ∧
      (r.expected_value = none → mkNarrative metricM r = .unusual metricM r.date r.value)) :=
  ⟨by simp [aRows4], anomaly_insights_first3 metricM aRows4 (by simp [aRows4])⟩

/-- C10: for a flagged row whose expected value is 0, the percent deviation
is defined as 0 instead of dividing by zero, a narrative is still produced
for that row, and the function is total on any anomaly frame (it always
returns exactly `min 3 n` narratives). -/
theorem anomaly_zero_expected_guard (metric : String) (anomalies : List ARow) (r : ARow)
    (hr : r ∈ anomalies.take 3) (he : r.expected_value = some 0) :
    mkNarrative metric r = .deviation metric r.date 0 (decide (0 < r.value)) r.value 0 ∧
    mkNarrative metric r ∈ generate_anomaly_insights metric anomalies ∧
    (generate_anomaly_insights metric anomalies).length = min 3 anomalies.length := by
  have hne : anomalies ≠ [] := by
    intro h0
    rw [h0] at hr
    simp at hr
  have hgen : generate_anomaly_insights metric anomalies
      = (anomalies.take 3).map (mkNarrative metric) := by
    rcases anomalies with _ | ⟨a, l⟩
    · exact absurd rfl hne
    · simp [generate_anomaly_insights]
  refine ⟨by simp [mkNarrative, he], ?_, ?_⟩
  · rw [hgen]
    exact List.mem_map_of_mem _ hr
  · rw [hgen, List.length_map, List.length_take]

/-- Witness for C10 at a one-row frame whose expected value is 0. -/
theorem anomaly_zero_expected_guard_witness :
    aRowZeroExp ∈ [aRowZeroExp].take 3 ∧ aRowZeroExp.expected_value = some 0 ∧
    (mkNarrative metricM aRowZeroExp
        = .deviation metricM aRowZeroExp.date 0 (decide (0 < aRowZeroExp.value))
            aRowZeroExp.value 0 ∧
     mkNarrative metricM aRowZeroExp ∈ generate_anomaly_insights metricM [aRowZeroExp] ∧
     (generate_anomaly_insights metricM [aRowZeroExp]).length = min 3 [aRowZeroExp].length) :=
  ⟨by simp, rfl,
   anomaly_zero_expected_guard metricM [aRowZeroExp] aRowZeroExp (by simp) rfl⟩

/-- C4 counterexample: on an actual value of 1/2 (nonzero but below 1) the
code divides by the actual value itself, giving MAPE 100%, while the claim's
`max(|actual|, 1)` denominator would give 50%. -/
theorem accuracy_mape_counterexample :
    (calculate_accuracy mapeCexActual mapeCexForecast).2.2 = 100 ∧
    specMAPE (innerJoin mapeCexActual mapeCexForecast) = 50 ∧
    (100 : ℚ) ≠ 50 := by
  have hjoin : innerJoin mapeCexActual mapeCexForecast = [((1 : ℚ)/2, 0)] := by
    norm_num [innerJoin, mapeCexActual, mapeCexForecast, List.filterMap, List.find?]
  refine ⟨?_, ?_, by norm_num⟩
  · simp only [calculate_accuracy, hjoin]
    norm_num [mseQ, maeQ, mapeQ, seriesMean]
  · rw [hjoin]
    norm_num [specMAPE, seriesMean, abs_of_nonneg, max_def]

/-- C4 (amended: the MAPE denominator is the actual value itself — i.e.
`|actual|` under the absolute value — when the actual value is nonzero, and
1 only when it is 0; it is not `max(|actual|, 1)`): on the inner join of the
actual and forecast series on date, the function returns the mean squared
error (whose square root is the reported RMSE), the mean absolute error, and
that guarded MAPE; on actual = [10, 20, 30], predicted = [10, 18, 33] it
returns MSE = 13/3 (RMSE = √(13/3) ≈ 2.08), MAE = 5/3 ≈ 1.67 and
MAPE = 20/3 ≈ 6.67, each within 0.01 of the claimed value. -/
theorem accuracy_metrics (actual forecast : List (ℤ × ℚ))
    (h : innerJoin actual forecast ≠ []) :
    calculate_accuracy actual forecast =
      (mseQ (innerJoin actual forecast), maeQ (innerJoin actual forecast),
        mapeQ (innerJoin actual forecast)) ∧
    mapeQ (innerJoin actual forecast) =
      seriesMean ((innerJoin actual forecast).map
        (fun p => |p.1 - p.2| / (if p.1 = 0 then 1 else |p.1|))) * 100 ∧
    calculate_accuracy actualEx forecastEx = (13/3, 5/3, 20/3) ∧
    |Real.sqrt ((13 : ℝ)/3) - 2.08| < 1/100 ∧
    |(5 : ℚ)/3 - 1.67| < 1/100 ∧
    |(20 : ℚ)/3 - 6.67| < 1/100 := by
  have hlen : ¬(innerJoin actual forecast).length = 0 := by
    simpa [List.length_eq_zero] using h
  refine ⟨?_, ?_, ?_, ?_, ?_, ?_⟩
  · simp only [calculate_accuracy, if_neg hlen]
  · unfold mapeQ
    congr 1
    congr 1
    apply List.map_congr_left
    intro p _
    by_cases hp : p.1 = 0
    · simp [hp]
    · rw [if_neg hp, if_neg hp, abs_div]
  · have hj : innerJoin actualEx forecastEx = [((10 : ℚ), (10 : ℚ)), (20, 18), (30, 33)] := by
      norm_num [innerJoin, actualEx, forecastEx, List.filterMap, List.find?]
    simp only [calculate_accuracy, hj]
    norm_num [mseQ, maeQ, mapeQ, seriesMean, abs_of_nonneg]
  · have h1 : (2.08 : ℝ) < Real.sqrt ((13 : ℝ)/3) := by
      rw [show (13 : ℝ)/3 = ((13 : ℝ)/3) from rfl]
      rw [Real.lt_sqrt (by norm_num)]
      norm_num
    have h2 : Real.sqrt ((13 : ℝ)/3) < 2.09 := by
      rw [Real.sqrt_lt' (by norm_num)]
      norm_num
    rw [abs_sub_lt_iff]
    constructor <;> linarith
  · rw [abs_sub_lt_iff]
    constructor <;> norm_num
  · rw [abs_sub_lt_iff]
    constructor <;> norm_num

/-- Witness for C4 at the example series. -/
theorem accuracy_metrics_witness :
    innerJoin actualEx forecastEx ≠ [] ∧
    (calculate_accuracy actualEx forecastEx =
      (mseQ (innerJoin actualEx forecastEx), maeQ (innerJoin actualEx forecastEx),
        mapeQ (innerJoin actualEx forecastEx)) ∧
    mapeQ (innerJoin actualEx forecastEx) =
      seriesMean ((innerJoin actualEx forecastEx).map
        (fun p => |p.1 - p.2| / (if p.1 = 0 then 1 else |p.1|))) * 100 ∧
    calculate_accuracy actualEx forecastEx = (13/3, 5/3, 20/3) ∧
    |Real.sqrt ((13 : ℝ)/3) - 2.08| < 1/100 ∧
    |(5 : ℚ)/3 - 1.67| < 1/100 ∧
    |(20 : ℚ)/3 - 6.67| < 1/100) := by
  have hj : innerJoin actualEx forecastEx = [((10 : ℚ), (10 : ℚ)), (20, 18), (30, 33)] := by
    norm_num [innerJoin, actualEx, forecastEx, List.filterMap, List.find?]
  exact ⟨by simp [hj], accuracy_metrics actualEx forecastEx (by simp [hj])⟩

/-- Inserting preserves length plus one. -/
lemma length_insertAsc (a : ℚ) (l : List ℚ) : (insertAsc a l).length = l.length + 1 := by
  induction l with
  | nil => rfl
  | cons b t ih => by_cases hab : a ≤ b <;> simp [insertAsc, hab, ih]

/-- Sorting preserves length. -/
lemma length_sortQ (l : List ℚ) : (sortQ l).length = l.length := by
  induction l with
  | nil => rfl
  | cons a t ih =>
    show (insertAsc a (sortQ t)).length = t.length + 1
    rw [length_insertAsc, ih]

/-- The median of a non-empty list of values exists. -/
lemma medianQ_isSome (xs : List ℚ) (h : xs ≠ []) : (medianQ xs).isSome = true := by
  have hlen : (sortQ xs).length = xs.length := length_sortQ xs
  have hn : (sortQ xs).length ≠ 0 := by
    rw [hlen]
    simpa [List.length_eq_zero] using h
  unfold medianQ
  rw [if_neg hn]
  by_cases hodd : (sortQ xs).length % 2 = 1
  · rw [if_pos hodd]
    have hlt : (sortQ xs).length / 2 < (sortQ xs).length :=
      Nat.div_lt_self (Nat.pos_of_ne_zero hn) (by norm_num)
    rw [List.get?_eq_get hlt]
    rfl
  · rw [if_neg hodd]
    have hge2 : 2 ≤ (sortQ xs).length := by omega
    have h1 : (sortQ xs).length / 2 - 1 < (sortQ xs).length := by omega
    have h2 : (sortQ xs).length / 2 < (sortQ xs).length := by omega
    rw [List.get?_eq_get h1, List.get?_eq_get h2]
    rfl

/-- Deduplication only keeps rows of the original list. -/
lemma mem_dedupAux {α : Type} [DecidableEq α] (l : List α) (a : α) :
    ∀ seen, a ∈ dedupAux seen l → a ∈ l := by
  induction l with
  | nil => intro seen h; exact absurd h (by simp [dedupAux])
  | cons b t ih =>
    intro seen h
    by_cases hb : b ∈ seen
    · exact List.mem_cons_of_mem _ (ih _ (by simpa [dedupAux, hb] using h))
    · rcases (by simpa [dedupAux, hb] using h : a = b ∨ a ∈ dedupAux (b :: seen) t) with h1 | h2
      · exact h1 ▸ List.mem_cons_self _ _
      · exact List.mem_cons_of_mem _ (ih _ h2)

/-- Deduplication only keeps rows of the original list. -/
lemma mem_dedupFirst {α : Type} [DecidableEq α] (l : List α) (a : α)
    (h : a ∈ dedupFirst l) : a ∈ l :=
  mem_dedupAux l a [] h

/-- Cell access into an imputed row: every cell is the `fillCell` image of
the original cell of the same column. -/
lemma fillNums_get? (df2 : List Row) :
    ∀ (l : List (Option ℚ)) (j0 j : ℕ),
      (fillNums df2 j0 l).get? j = (l.get? j).map (fillCell df2 (j0 + j)) := by
  intro l
  induction l with
  | nil => intro j0 j; simp [fillNums]
  | cons v rest ih =>
    intro j0 j
    cases j with
    | zero => simp [fillNums]
    | succ j' =>
      have hidx : j0 + 1 + j' = j0 + (j' + 1) := by omega
      simp only [fillNums, List.get?_cons_succ, ih (j0 + 1) j', hidx]

/-- C6 counterexample: a frame whose single numeric column is entirely null
is returned unchanged by `clean_dataframe` — the column median does not
exist, `fillna` fills nothing, and the numeric column still contains a null,
contradicting the claim that numeric columns of the returned frame contain
no nulls. -/
theorem clean_allnull_counterexample :
    clean_dataframe parse0 dfAllNull = dfAllNull ∧
    (clean_dataframe parse0 dfAllNull).map Row.nums = [[none]] := by
  have h : clean_dataframe parse0 dfAllNull = dfAllNull := by
    simp [clean_dataframe, convertDates, dedupFirst, dedupAux, imputeNums, imputeCats,
      fillNums, fillCell, someVals, medianQ, sortQ, fillCats, dfAllNull, parse0,
      toCanonicalDate]
  exact ⟨h, by rw [h]; simp [dfAllNull]⟩

/-- C6 (amended: an all-null numeric column keeps its nulls, since its median
is undefined; every numeric column containing at least one non-null value is
fully imputed): `clean_dataframe` converts the date column to the canonical
type, removes duplicate rows, replaces every null in a numeric column by
that column's median computed over the deduplicated frame whenever the
column has any non-null value (leaving nulls in place otherwise and keeping
non-null cells unchanged), and replaces every null in a categorical column
by the sentinel, so categorical columns and numeric columns with at least
one value contain no nulls afterwards. -/
theorem clean_dataframe_spec (parse : String → ℤ) (df : List Row) :
    clean_dataframe parse df
      = imputeCats (imputeNums (dedupFirst (convertDates parse df))) ∧
    (∀ r ∈ clean_dataframe parse df, r.date.isRight = true ∧ none ∉ r.cats) ∧
    (∀ i r j, (dedupFirst (convertDates parse df)).get? i = some r →
        r.nums.get? j = some none →
        ((clean_dataframe parse df).get? i).bind (fun r2 => r2.nums.get? j)
          = some (medianQ (someVals (dedupFirst (convertDates parse df)) j))) ∧
    (∀ i r j x, (dedupFirst (convertDates parse df)).get? i = some r →
        r.nums.get? j = some (some x) →
        ((clean_dataframe parse df).get? i).bind (fun r2 => r2.nums.get? j)
          = some (some x)) ∧
    (∀ j, someVals (dedupFirst (convertDates parse df)) j ≠ [] →
        ∀ r ∈ clean_dataframe parse df, r.nums.get? j ≠ some none) := by
  refine ⟨rfl, ?_, ?_, ?_, ?_⟩
  · intro r hr
    simp only [clean_dataframe, imputeCats, imputeNums, List.mem_map] at hr
    obtain ⟨r1, ⟨r0, hr0, rfl⟩, rfl⟩ := hr
    constructor
    · have hr0' : r0 ∈ convertDates parse df := mem_dedupFirst _ _ hr0
      simp only [convertDates, List.mem_map] at hr0'
      obtain ⟨r00, _, rfl⟩ := hr0'
      cases r00.date <;> rfl
    · intro hc
      simp only [fillCats, List.mem_map] at hc
      obtain ⟨c, _, hcc⟩ := hc
      exact Option.noConfusion hcc
  · intro i r j hi hj
    have hstep : (clean_dataframe parse df).get? i
        = some ({ r with nums := fillNums (dedupFirst (convertDates parse df)) 0 r.nums,
                         cats := fillCats r.cats }) := by
      simp only [clean_dataframe, imputeCats, imputeNums, List.get?_map, List.map_map, hi]
      rfl
    rw [hstep]
    simp only [Option.some_bind]
    rw [fillNums_get? _ _ 0 j, hj]
    simp [fillCell]
  · intro i r j x hi hj
    have hstep : (clean_dataframe parse df).get? i
        = some ({ r with nums := fillNums (dedupFirst (convertDates parse df)) 0 r.nums,
                         cats := fillCats r.cats }) := by
      simp only [clean_dataframe, imputeCats, imputeNums, List.get?_map, List.map_map, hi]
      rfl
    rw [hstep]
    simp only [Option.some_bind]
    rw [fillNums_get? _ _ 0 j, hj]
    simp [fillCell]
  · intro j hjne r hr hcell
    simp only [clean_dataframe, imputeCats, imputeNums, List.mem_map] at hr
    obtain ⟨r1, ⟨r0, hr0, rfl⟩, rfl⟩ := hr
    rw [show ({ r0 with nums := fillNums (dedupFirst (convertDates parse df)) 0 r0.nums } : Row).nums
        = fillNums (dedupFirst (convertDates parse df)) 0 r0.nums from rfl] at hcell
    rw [fillNums_get? _ _ 0 j] at hcell
    rcases hv : r0.nums.get? j with _ | v
    · rw [hv] at hcell
      exact Option.noConfusion hcell
    · rw [hv] at hcell
      simp only [Option.map_some'] at hcell
      have hfc : fillCell (dedupFirst (convertDates parse df)) (0 + j) v = none :=
        Option.some.inj hcell
      cases v with
      | some x => exact Option.noConfusion hfc
      | none =>
        have hmed := medianQ_isSome (someVals (dedupFirst (convertDates parse df)) j) hjne
        rw [show fillCell (dedupFirst (convertDates parse df)) (0 + j) none
            = medianQ (someVals (dedupFirst (convertDates parse df)) (0 + j)) from rfl] at hfc
        rw [Nat.zero_add] at hfc
        rw [hfc] at hmed
        exact Bool.noConfusion hmed

end OpsIntel
